import Mathlib

/-!
# Verification of the event-booking seat/hold/booking pipeline

A shallow embedding, in Lean 4, of the seat inventory & hold engine
(`event-service/repository/postgres/event_repository.go`), the booking
repository and worker (`booking-service/repository`, `cmd/worker`), and the
booking HTTP surface (`booking-service/handler.go`, `booking-service/model`),
together with proofs and refutations of the specification's claims about them.

Database tables are lists of rows; SQL `WHERE` clauses over `LEFT JOIN`s are
evaluated in SQL's three-valued logic (`Option Bool`, `none` = SQL `NULL`)
so that the embedding is faithful to PostgreSQL semantics on dangling or
null `hold_id` references.  Timestamps are integers, monetary amounts are
rationals; both are only ever copied and compared, never rounded.
-/

deriving instance DecidableEq for Except

namespace EventBooking

/-- Timestamps (`time.Time`, `NOW()`), modelled as integers. -/
abbrev Time := Int

/-- Row of the `seats` table (`event-service/model` `Seat`, string-ID variant):
`(id, event_id, seat_number, status ∈ {available, held, booked}, hold_id nullable)`. -/
structure Seat where
  id : String
  eventId : String
  seatNumber : String
  status : String
  holdId : Option String
deriving DecidableEq

/-- Row of the `holds` table (`event-service/model` `Hold`):
`(id, user_id, event_id, seat_numbers text[], expires_at, status ∈ {active, confirmed, expired})`. -/
structure Hold where
  id : String
  userId : String
  eventId : String
  seatNumbers : List String
  expiresAt : Time
  status : String
deriving DecidableEq

/-- The event-service database state: the `seats` and `holds` tables. -/
structure EventState where
  seats : List Seat
  holds : List Hold
deriving DecidableEq

/-! ## SQL three-valued logic

`Option Bool` with `none` as SQL `NULL`; a `WHERE` clause keeps a row
iff its condition evaluates to `some true`. -/

/-- SQL `AND` (Kleene three-valued conjunction). -/
def tvAnd : Option Bool → Option Bool → Option Bool
  | some false, _ => some false
  | _, some false => some false
  | some true, some true => some true
  | _, _ => none

/-- SQL `OR` (Kleene three-valued disjunction). -/
def tvOr : Option Bool → Option Bool → Option Bool
  | some true, _ => some true
  | _, some true => some true
  | some false, some false => some false
  | _, _ => none

/-- SQL `NOT` (`NOT NULL = NULL`). -/
def tvNot : Option Bool → Option Bool :=
  Option.map (!·)

/-- The hold row joined to a seat by `LEFT JOIN holds h ON s.hold_id = h.id`:
`none` when `hold_id` is `NULL` or dangling (the joined columns are then SQL `NULL`). -/
def joinedHold (st : EventState) (s : Seat) : Option Hold :=
  s.holdId.bind fun hid => st.holds.find? fun h => h.id == hid

/-- The `WHERE` condition of `GetAvailableSeats` / `GetAvailableSeatCount`
(`event_repository.go`):
`s.status = 'available' OR (s.status = 'held' AND h.expires_at < NOW())`. -/
def availWhere (st : EventState) (now : Time) (s : Seat) : Option Bool :=
  tvOr (some (s.status == "available"))
    (tvAnd (some (s.status == "held"))
      ((joinedHold st s).map fun h => decide (h.expiresAt < now)))

/-- The `WHERE` condition selecting *unavailable* seats in
`CheckSeatsAvailability` (`event_repository.go`):
`s.status != 'available' AND NOT (s.status = 'held' AND h.expires_at < NOW())`. -/
def unavailWhere (st : EventState) (now : Time) (s : Seat) : Option Bool :=
  tvAnd (some (s.status != "available"))
    (tvNot (tvAnd (some (s.status == "held"))
      ((joinedHold st s).map fun h => decide (h.expiresAt < now))))

/-- `PostgresEventRepository.GetAvailableSeats`: seat numbers of the event's
seats whose `availWhere` condition holds, `ORDER BY seat_number`. -/
def GetAvailableSeats (st : EventState) (now : Time) (eventID : String) : List String :=
  (((st.seats.filter fun s =>
      s.eventId == eventID && (availWhere st now s == some true))).map Seat.seatNumber).mergeSort
    (fun a b => a ≤ b)

/-- `PostgresEventRepository.GetAvailableSeatCount`: `COUNT(*)` over the same
`WHERE` condition. -/
def GetAvailableSeatCount (st : EventState) (now : Time) (eventID : String) : Nat :=
  ((st.seats.filter fun s =>
      s.eventId == eventID && (availWhere st now s == some true))).length

/-- `PostgresEventRepository.CheckSeatsAvailability`: selects the requested
seats that are unavailable; errors (`"seats not available"`) iff that set is
non-empty. -/
def CheckSeatsAvailability (st : EventState) (now : Time) (eventID : String)
    (seatNumbers : List String) : Except String Unit :=
  let unavailableSeats := ((st.seats.filter fun s =>
      s.eventId == eventID && seatNumbers.contains s.seatNumber
        && (unavailWhere st now s == some true))).map Seat.seatNumber
  if unavailableSeats.length > 0 then .error "seats not available" else .ok ()

/-- `PostgresEventRepository.CheckSeatsExist`: selects the existing rows among
the requested seat numbers; when fewer rows than requested labels come back it
fails with the message `"seat numbers do not exist: %v"`, carrying exactly the
requested labels not found among the existing ones (the error value here is
that list). -/
def CheckSeatsExist (st : EventState) (eventID : String)
    (seatNumbers : List String) : Except (List String) Unit :=
  let existingSeats := ((st.seats.filter fun s =>
      s.eventId == eventID && seatNumbers.contains s.seatNumber)).map Seat.seatNumber
  if existingSeats.length ≠ seatNumbers.length then
    .error (seatNumbers.filter fun seat => !existingSeats.contains seat)
  else
    .ok ()

/-- `model.CreateHoldRequest` (string-ID variant). -/
structure CreateHoldRequest where
  id : String
  userId : String
  eventId : String
  seatNumbers : List String
  expiresAt : Time
deriving DecidableEq

/-- The two business failures of `CreateHold`: the `CheckSeatsExist` error
(with the missing labels) and the `CheckSeatsAvailability` error. -/
inductive HoldError where
  | seatsDoNotExist (missing : List String)
  | seatsNotAvailable
deriving DecidableEq

/-- `PostgresEventRepository.CreateHold`: check existence, check availability,
insert the hold row with `status = 'active'`, and move the matching seat rows
(`event_id = ? AND seat_number IN (?)`) to `status = 'held'`, `hold_id = hold.id`. -/
def CreateHold (st : EventState) (now : Time) (req : CreateHoldRequest) :
    Except HoldError (Hold × EventState) :=
  match CheckSeatsExist st req.eventId req.seatNumbers with
  | .error missing => .error (.seatsDoNotExist missing)
  | .ok _ =>
    match CheckSeatsAvailability st now req.eventId req.seatNumbers with
    | .error _ => .error .seatsNotAvailable
    | .ok _ =>
      let hold : Hold :=
        { id := req.id, userId := req.userId, eventId := req.eventId
          seatNumbers := req.seatNumbers, expiresAt := req.expiresAt, status := "active" }
      .ok (hold,
        { seats := st.seats.map fun s =>
            if s.eventId == req.eventId && req.seatNumbers.contains s.seatNumber then
              { s with status := "held", holdId := some hold.id }
            else s
          holds := st.holds ++ [hold] })

/-- `PostgresEventRepository.ReleaseHold`: load the hold (`"hold not found"` if
absent); set every seat of the event whose number is among the hold's labels
back to `status = 'available'`, `hold_id = NULL`; set the hold's status to
`'expired'`.  No condition on the hold's or the seats' current status. -/
def ReleaseHold (st : EventState) (holdID : String) : Except String EventState :=
  match st.holds.find? (fun h => h.id == holdID) with
  | none => .error "hold not found"
  | some hold => .ok
      { seats := st.seats.map fun s =>
          if s.eventId == hold.eventId && hold.seatNumbers.contains s.seatNumber then
            { s with status := "available", holdId := none }
          else s
        holds := st.holds.map fun h =>
          if h.id == holdID then { h with status := "expired" } else h }

/-- `PostgresEventRepository.ConfirmHold`: load the hold (`"hold not found"` if
absent); set every seat of the event whose number is among the hold's labels to
`status = 'booked'` (`hold_id` untouched); set the hold's status to
`'confirmed'`.  No condition on the hold's current status. -/
def ConfirmHold (st : EventState) (holdID : String) : Except String EventState :=
  match st.holds.find? (fun h => h.id == holdID) with
  | none => .error "hold not found"
  | some hold => .ok
      { seats := st.seats.map fun s =>
          if s.eventId == hold.eventId && hold.seatNumbers.contains s.seatNumber then
            { s with status := "booked" }
          else s
        holds := st.holds.map fun h =>
          if h.id == holdID then { h with status := "confirmed" } else h }

/-! ## Seat-label generation (`generateSeats` / `generateRowName`) -/

/-- The per-row seat capacity used by the string-ID `generateSeats`
(`for seatNum <= 500`); the repository comment calls it configurable. -/
def seatsPerRow : Nat := 500

/-- `generateRowName`: Excel-style bijective base-26 row names over `A`..`Z`,
as a character list (`String` is a wrapper around `List Char`).  The source
loop prepends `'A' + index % 26`, then sets `index = index/26` and, when it is
non-zero, decrements it ("no zero letter") and continues; that is exactly this
recursion. -/
def generateRowName (index : Nat) : List Char :=
  if _h : index < 26 then
    [Char.ofNat ('A'.toNat + index)]
  else
    generateRowName (index / 26 - 1) ++ [Char.ofNat ('A'.toNat + index % 26)]
termination_by index
decreasing_by
  have h26 : 26 ≤ index := Nat.le_of_not_lt _h
  calc index / 26 - 1 ≤ index / 26 := Nat.sub_le _ _
    _ < index := Nat.div_lt_self (Nat.lt_of_lt_of_le (by norm_num) h26) (by norm_num)

/-- Decimal digit character for `d < 10`. -/
def digitChar (d : Nat) : Char := Char.ofNat ('0'.toNat + d)

/-- Little-endian decimal digits of `n` (empty for `0`). -/
def natDigitsAux : Nat → List Char
  | 0 => []
  | n + 1 => digitChar ((n + 1) % 10) :: natDigitsAux ((n + 1) / 10)
decreasing_by exact Nat.div_lt_self (Nat.succ_pos n) (by norm_num)

/-- Decimal rendering of `n` as `fmt.Sprintf("%d", n)` produces it, for `n ≥ 1`. -/
def natDigits (n : Nat) : List Char := (natDigitsAux n).reverse

/-- One seat label: `fmt.Sprintf("%s%d", rowName, seatNum)`. -/
def seatLabel (rowIndex : Nat) (seatNum : Nat) : List Char :=
  generateRowName rowIndex ++ natDigits seatNum

/-- The inner loop of `generateSeats`: emit labels `rowName seatNum`,
`rowName (seatNum+1)`, ... while `seatNum ≤ R` and seats remain. -/
def generateRow (rowIndex : Nat) (seatNum : Nat) (remaining : Nat) (R : Nat) : List (List Char) :=
  match remaining with
  | 0 => []
  | r + 1 =>
    if seatNum ≤ R then seatLabel rowIndex seatNum :: generateRow rowIndex (seatNum + 1) r R
    else []

/-- The outer loop of `generateSeats` (`for seatCount < totalSeats`), with
explicit fuel: when `R ≥ 1` every outer iteration emits at least one label, so
fuel `totalSeats` reproduces the source loop exactly. -/
def generateSeatsAux (fuel : Nat) (rowIndex : Nat) (remaining : Nat) (R : Nat) :
    List (List Char) :=
  match fuel with
  | 0 => []
  | f + 1 =>
    if remaining = 0 then []
    else
      let row := generateRow rowIndex 1 remaining R
      row ++ generateSeatsAux f (rowIndex + 1) (remaining - row.length) R

/-- `PostgresEventRepository.generateSeats` (string-ID variant), parameterized
by the per-row capacity `R` (the source fixes `R = seatsPerRow = 500`),
returning the seat labels in generation order. -/
def generateSeats (totalSeats : Nat) (R : Nat) : List (List Char) :=
  generateSeatsAux totalSeats 0 totalSeats R

/-- Bijective base-26 value of a row name (+1): left inverse of
`generateRowName`. -/
def rowNameVal (l : List Char) : Nat :=
  l.foldl (fun acc c => acc * 26 + (c.toNat - 'A'.toNat + 1)) 0

/-- Value of a little-endian decimal digit list: left inverse of
`natDigitsAux`. -/
def digitsVal : List Char → Nat
  | [] => 0
  | c :: cs => (c.toNat - '0'.toNat) + 10 * digitsVal cs

/-! ## Booking service: model, repository, worker -/

/-- Row of the `bookings` table (`booking-service/model` `Booking`). -/
structure Booking where
  id : String
  userId : String
  userEmail : String
  userName : String
  eventId : String
  eventName : String
  venue : String
  eventDate : Time
  seats : List String
  totalAmount : Rat
  status : String
  paymentStatus : String
  holdId : String
  errorMessage : Option String
  createdAt : Time
  confirmedAt : Option Time
  failedAt : Option Time
deriving DecidableEq

/-- The gorm tag on `Booking.HoldID` (`booking-service/model/booking.go`). -/
def bookingHoldIDGormTag : String := "not null;index"

/-- Splitting a character list on `';'` (the semantics of `strings.Split` /
`String.splitOn ";"`, written as plain recursion so it evaluates in the
kernel). -/
def splitOnSemicolon : List Char → List (List Char)
  | [] => [[]]
  | c :: cs =>
    if c = ';' then [] :: splitOnSemicolon cs
    else
      match splitOnSemicolon cs with
      | [] => [[c]]
      | x :: xs => (c :: x) :: xs

/-- The directives of a gorm struct tag (split on `;`). -/
def gormTagEntries (tag : String) : List String :=
  (splitOnSemicolon tag.toList).map String.mk

/-- Whether a gorm tag declares a unique constraint or unique index on the
column (gorm requires a `unique` or `uniqueIndex` directive for that). -/
def gormTagDeclaresUnique (tag : String) : Bool :=
  (gormTagEntries tag).contains "unique" || (gormTagEntries tag).contains "uniqueIndex"

/-- `model.UpdateBookingStatusRequest`. -/
structure UpdateBookingStatusRequest where
  bookingId : String
  status : String
  paymentStatus : String
  errorMessage : Option String
  confirmedAt : Option Time
  failedAt : Option Time
deriving DecidableEq

/-- `PostgresBookingRepository.UpdateBookingStatus`: update `status` and
`payment_status` (plus `error_message` / `confirmed_at` / `failed_at` when
set in the request) on the row `WHERE id = ?`.  The `WHERE` clause names only
the id: there is no condition on the row's current status. -/
def UpdateBookingStatus (bookings : List Booking) (req : UpdateBookingStatusRequest) :
    List Booking :=
  bookings.map fun b =>
    if b.id == req.bookingId then
      { b with
        status := req.status
        paymentStatus := req.paymentStatus
        errorMessage := match req.errorMessage with
          | some m => some m
          | none => b.errorMessage
        confirmedAt := match req.confirmedAt with
          | some t => some t
          | none => b.confirmedAt
        failedAt := match req.failedAt with
          | some t => some t
          | none => b.failedAt }
    else b

/-- `model.CreateBookingRequest` (the fields `CreateBooking` copies). -/
structure CreateBookingRequest where
  userId : String
  userEmail : String
  userName : String
  eventId : String
  eventName : String
  venue : String
  eventDate : Time
  seats : List String
  totalAmount : Rat
  holdId : String
deriving DecidableEq

/-- `PostgresBookingRepository.CreateBooking`: insert a row with
`status = 'processing'`, `payment_status = 'pending'`.  The insert is a plain
`db.Create`; since `hold_id` carries only a non-unique index
(`bookingHoldIDGormTag`) nothing stops a second row with the same `hold_id`. -/
def CreateBooking (bookings : List Booking) (req : CreateBookingRequest) (newId : String) :
    Booking × List Booking :=
  let booking : Booking :=
    { id := newId, userId := req.userId, userEmail := req.userEmail
      userName := req.userName, eventId := req.eventId, eventName := req.eventName
      venue := req.venue, eventDate := req.eventDate, seats := req.seats
      totalAmount := req.totalAmount, status := "processing"
      paymentStatus := "pending", holdId := req.holdId, errorMessage := none
      createdAt := 0, confirmedAt := none, failedAt := none }
  (booking, bookings ++ [booking])

/-- The sequence of `UpdateBookingStatusRequest`s that
`BookingProcessor.processBooking` issues for one message, as a function of the
two outcomes it branches on (the payment step, then the `ConfirmHold` call;
`some e` is a failure with error text `e`).  The first write is always
`status = 'processing'`, `payment_status = 'payment'`; the worker never reads
the booking row first.  The compensating `ReleaseHold` call on payment failure
goes to the event service and issues no status write. -/
def processBookingUpdates (bookingId : String) (now : Time)
    (paymentErr : Option String) (confirmErr : Option String) :
    List UpdateBookingStatusRequest :=
  { bookingId := bookingId, status := "processing", paymentStatus := "payment"
    errorMessage := none, confirmedAt := none, failedAt := none } ::
  match paymentErr with
  | some e =>
    [{ bookingId := bookingId, status := "failed", paymentStatus := "failed"
       errorMessage := some ("Payment failed: " ++ e)
       confirmedAt := none, failedAt := some now }]
  | none =>
    match confirmErr with
    | some e =>
      [{ bookingId := bookingId, status := "failed", paymentStatus := "refund_pending"
         errorMessage := some ("Failed to confirm seats: " ++ e)
         confirmedAt := none, failedAt := some now }]
    | none =>
      [{ bookingId := bookingId, status := "confirmed", paymentStatus := "completed"
         errorMessage := none, confirmedAt := some now, failedAt := none }]

/-- Running a sequence of status updates against the `bookings` table. -/
def applyUpdates (bookings : List Booking) (reqs : List UpdateBookingStatusRequest) :
    List Booking :=
  reqs.foldl UpdateBookingStatus bookings

/-! ## Booking status view and status stream (`booking-service/handler.go`) -/

/-- `model.BookingEventDetails`. -/
structure BookingEventDetails where
  eventId : String
  name : String
  venue : String
  eventDate : Time
deriving DecidableEq

/-- `model.BookingStatusResponse`.  `event = none` / `seats = none` model the
Go nil pointer / nil slice, which `omitempty` drops from the JSON;
`totalAmount = 0` is likewise dropped by `omitempty`. -/
structure BookingStatusResponse where
  bookingId : String
  status : String
  event : Option BookingEventDetails
  seats : Option (List String)
  totalAmount : Rat
  paymentStatus : String
  errorMessage : Option String
  createdAt : Time
  confirmedAt : Option Time
  failedAt : Option Time
deriving DecidableEq

/-- `Booking.ToBookingStatusResponse`: event details, seat list and total
amount are filled in only when the status is `confirmed` or `processing`. -/
def ToBookingStatusResponse (b : Booking) : BookingStatusResponse :=
  let response : BookingStatusResponse :=
    { bookingId := b.id, status := b.status, event := none, seats := none
      totalAmount := 0, paymentStatus := b.paymentStatus
      errorMessage := b.errorMessage, createdAt := b.createdAt
      confirmedAt := b.confirmedAt, failedAt := b.failedAt }
  if b.status == "confirmed" || b.status == "processing" then
    { response with
      event := some { eventId := b.eventId, name := b.eventName, venue := b.venue
                      eventDate := b.eventDate }
      seats := some b.seats
      totalAmount := b.totalAmount }
  else response

/-- `model.BookingStatusUpdate`, the payload of an SSE `status` event. -/
structure BookingStatusUpdate where
  bookingId : String
  status : String
  message : String
  updatedAt : Time
deriving DecidableEq

/-- The payload of the SSE `complete` event
(`StreamBookingStatus`): the JSON object literal
`{"booking_id": ..., "final_status": ...}` — these two keys and nothing else. -/
def completePayload (b : Booking) : List (String × String) :=
  [("booking_id", b.id), ("final_status", b.status)]

/-- One event of the SSE stream. -/
inductive SSEEvent where
  | status (u : BookingStatusUpdate)
  | complete (fields : List (String × String))
deriving DecidableEq

/-- The connect-time behaviour of `BookingHandler.StreamBookingStatus` for an
existing booking `b`: emit one `status` event; if the status is terminal
(`confirmed` or `failed`), also emit the `complete` event and return (the
returned `Bool` is whether the stream closed). -/
def streamInitial (b : Booking) (now : Time) : List SSEEvent × Bool :=
  let statusEv := SSEEvent.status
    { bookingId := b.id, status := b.status
      message := "Current status: " ++ b.status, updatedAt := now }
  if b.status == "confirmed" || b.status == "failed" then
    ([statusEv, SSEEvent.complete (completePayload b)], true)
  else
    ([statusEv], false)

/-- One poll tick of `StreamBookingStatus` after connect: if the freshly read
status differs from the last seen one, emit a `status` event, and on a
terminal status also the `complete` event, closing the stream. -/
def streamTick (lastStatus : String) (b : Booking) (now : Time) : List SSEEvent × Bool :=
  if b.status ≠ lastStatus then
    let statusEv := SSEEvent.status
      { bookingId := b.id, status := b.status
        message := "Status updated to: " ++ b.status, updatedAt := now }
    if b.status == "confirmed" || b.status == "failed" then
      ([statusEv, SSEEvent.complete (completePayload b)], true)
    else
      ([statusEv], false)
  else ([], false)

/-! ## Hold-seats HTTP endpoint -/

/-- Outcome of `POST /api/events/:id/hold`. -/
inductive HoldSeatsOutcome where
  | created (hold : Hold) (st' : EventState)
  | badRequestUnknownSeats (missing : List String)
  | conflictUnavailable
deriving DecidableEq

/-- Modelled from the spec: the current string-ID `EventHandler.HoldSeats` of
the event service (package `main`) is not among the provided sources — only
the older uuid-typed handler variant and the string-ID repository are.  Per
the spec ("Verify every requested label exists for the event; else fail
`SeatUnknown` with the missing set"; "POST hold {seat_numbers:[\"Z99\",\"Z100\"]}
→ 400, message names Z99/Z100 as non-existent"; error table: `seats_unavailable`
→ 409), the handler calls the repository's `CreateHold` and maps its
seats-do-not-exist failure to HTTP 400 carrying the missing labels, and its
seats-not-available failure to HTTP 409. -/
def HoldSeatsEndpoint (st : EventState) (now : Time) (req : CreateHoldRequest) :
    HoldSeatsOutcome :=
  match CreateHold st now req with
  | .ok (hold, st') => .created hold st'
  | .error (.seatsDoNotExist missing) => .badRequestUnknownSeats missing
  | .error .seatsNotAvailable => .conflictUnavailable

/-! ## Specification-side availability predicate (for the refinement claim) -/

/-- The spec's *effective availability* predicate, written from the spec's
words: a seat is effectively available iff `status = available`, or
`status = held` and the joined hold's `expires_at` is before `now`. -/
def specAvailable (st : EventState) (now : Time) (s : Seat) : Bool :=
  s.status == "available"
    || (s.status == "held"
      && match joinedHold st s with
         | some h => decide (h.expiresAt < now)
         | none => false)

/-- Database well-formedness used by the availability-agreement claim:
hold ids are primary keys (no duplicates), and every `held` seat's `hold_id`
resolves to a hold row (spec invariant S1/H1; every code path that sets
`status = 'held'` also sets `hold_id` to an inserted hold's id). -/
def WellFormed (st : EventState) : Prop :=
  (st.holds.map Hold.id).Nodup ∧
    ∀ s ∈ st.seats, s.status = "held" → ∃ h ∈ st.holds, s.holdId = some h.id

instance (st : EventState) : Decidable (WellFormed st) := by
  unfold WellFormed; infer_instance

/-! ## Concrete fixtures used by the claim theorems and witnesses -/

/-- A hold that has already been marked `expired`, whose single seat was
released back to `available`. -/
def stExpiredHold : EventState :=
  { seats := [⟨"s1", "e1", "A1", "available", none⟩]
    holds := [⟨"h1", "u1", "e1", ["A1"], 5, "expired"⟩] }

/-- A confirmed hold whose seat is `booked` (the state `ConfirmHold` leaves;
`hold_id` stays set because `ConfirmHold` updates only the seat's status). -/
def stBookedSeat : EventState :=
  { seats := [⟨"s1", "e1", "A1", "booked", some "h1"⟩]
    holds := [⟨"h1", "u1", "e1", ["A1"], 5, "confirmed"⟩] }

/-- Hold `h1` expired and released; its seat label since re-held by `h2`. -/
def stSeatRehandedToH2 : EventState :=
  { seats := [⟨"s1", "e1", "A1", "held", some "h2"⟩]
    holds := [⟨"h1", "u1", "e1", ["A1"], 5, "expired"⟩,
              ⟨"h2", "u2", "e1", ["A1"], 40, "active"⟩] }

/-- A two-seat event: `A1` available, `A2` held by the active hold `h1` that
expires at time 5. -/
def stTwoSeats : EventState :=
  { seats := [⟨"s1", "e1", "A1", "available", none⟩, ⟨"s2", "e1", "A2", "held", some "h1"⟩]
    holds := [⟨"h1", "u1", "e1", ["A2"], 5, "active"⟩] }

/-- A two-seat event with labels `A1`, `A2`, both available (spec scenario 3). -/
def stEventA1A2 : EventState :=
  { seats := [⟨"s1", "e1", "A1", "available", none⟩, ⟨"s2", "e1", "A2", "available", none⟩]
    holds := [] }

/-- The hold request of spec scenario 3: labels `Z99`, `Z100` on event `e1`. -/
def reqZ : CreateHoldRequest :=
  { id := "h9", userId := "u2", eventId := "e1", seatNumbers := ["Z99", "Z100"]
    expiresAt := 100 }

/-- A booking row already driven to the terminal status `confirmed`. -/
def bkConfirmed : Booking :=
  { id := "b1", userId := "u1", userEmail := "u1@mail.test", userName := "User One"
    eventId := "e1", eventName := "Concert 2024", venue := "Arena", eventDate := 1000
    seats := ["A1", "A2"], totalAmount := 100, status := "confirmed"
    paymentStatus := "completed", holdId := "h1", errorMessage := none
    createdAt := 10, confirmedAt := some 50, failedAt := none }

/-- A booking row in the terminal status `failed`, as the worker leaves it
after a payment failure. -/
def bkFailed : Booking :=
  { id := "b2", userId := "u1", userEmail := "u1@mail.test", userName := "User One"
    eventId := "e1", eventName := "Concert 2024", venue := "Arena", eventDate := 1000
    seats := ["A1", "A2"], totalAmount := 100, status := "failed"
    paymentStatus := "failed", holdId := "h2"
    errorMessage := some "Payment failed: payment gateway declined transaction"
    createdAt := 10, confirmedAt := none, failedAt := some 60 }

/-- A `CreateBookingRequest` for hold `h1`. -/
def reqHold1 : CreateBookingRequest :=
  { userId := "u1", userEmail := "u1@mail.test", userName := "User One"
    eventId := "e1", eventName := "Concert 2024", venue := "Arena", eventDate := 1000
    seats := ["A1", "A2"], totalAmount := 100, holdId := "h1" }

/-! ## Lemmas on seat-label generation -/

theorem generateRowName_toNat_bounds (idx : Nat) :
    ∀ c ∈ generateRowName idx, 65 ≤ c.toNat ∧ c.toNat ≤ 90 := by
  induction idx using Nat.strong_induction_on with
  | _ idx ih =>
    have hchar : ∀ d : Nat, d < 26 → (Char.ofNat ('A'.toNat + d)).toNat = 65 + d := by decide
    rw [generateRowName]
    split
    · intro c hc
      rw [List.mem_singleton] at hc
      subst hc
      rw [hchar idx (by omega)]
      omega
    · next h =>
      intro c hc
      rcases List.mem_append.mp hc with h1 | h2
      · have h26 : 26 ≤ idx := Nat.le_of_not_lt h
        have : idx / 26 - 1 < idx := by
          have : idx / 26 < idx := Nat.div_lt_self (by omega) (by norm_num)
          omega
        exact ih _ this c h1
      · rw [List.mem_singleton] at h2
        subst h2
        rw [hchar (idx % 26) (Nat.mod_lt _ (by norm_num))]
        have := Nat.mod_lt idx (y := 26) (by norm_num)
        omega

theorem generateRowName_ne_nil (idx : Nat) : generateRowName idx ≠ [] := by
  rw [generateRowName]
  split <;> simp

theorem rowNameVal_generateRowName (idx : Nat) :
    rowNameVal (generateRowName idx) = idx + 1 := by
  induction idx using Nat.strong_induction_on with
  | _ idx ih =>
    have hchar : ∀ d : Nat, d < 26 → (Char.ofNat ('A'.toNat + d)).toNat = 65 + d := by decide
    rw [generateRowName]
    split
    · next h =>
      simp only [rowNameVal, List.foldl_cons, List.foldl_nil]
      rw [hchar idx h]
      simp
    · next h =>
      have h26 : 26 ≤ idx := Nat.le_of_not_lt h
      have hrec : idx / 26 - 1 < idx := by
        have : idx / 26 < idx := Nat.div_lt_self (by omega) (by norm_num)
        omega
      have hdiv1 : 1 ≤ idx / 26 := (Nat.one_le_div_iff (by norm_num)).mpr h26
      unfold rowNameVal
      rw [List.foldl_append]
      have hpre := ih _ hrec
      unfold rowNameVal at hpre
      rw [hpre]
      simp only [List.foldl_cons, List.foldl_nil]
      rw [hchar (idx % 26) (Nat.mod_lt _ (by norm_num))]
      simp only [show 'A'.toNat = 65 from rfl]
      have hmod := Nat.div_add_mod idx 26
      omega

theorem generateRowName_inj {a b : Nat}
    (h : generateRowName a = generateRowName b) : a = b := by
  have ha := rowNameVal_generateRowName a
  have hb := rowNameVal_generateRowName b
  rw [h, hb] at ha
  omega

theorem natDigitsAux_toNat_bounds (n : Nat) :
    ∀ c ∈ natDigitsAux n, 48 ≤ c.toNat ∧ c.toNat ≤ 57 := by
  induction n using Nat.strong_induction_on with
  | _ n ih =>
    have hchar : ∀ d : Nat, d < 10 → (Char.ofNat ('0'.toNat + d)).toNat = 48 + d := by decide
    match n with
    | 0 => intro c hc; simp [natDigitsAux] at hc
    | m + 1 =>
      intro c hc
      rw [natDigitsAux] at hc
      rcases List.mem_cons.mp hc with h1 | h2
      · subst h1
        unfold digitChar
        rw [hchar ((m + 1) % 10) (Nat.mod_lt _ (by norm_num))]
        have := Nat.mod_lt (m + 1) (y := 10) (by norm_num)
        omega
      · exact ih ((m + 1) / 10) (Nat.div_lt_self (Nat.succ_pos m) (by norm_num)) c h2

theorem natDigitsAux_ne_nil {n : Nat} (h : 1 ≤ n) : natDigitsAux n ≠ [] := by
  match n with
  | m + 1 => rw [natDigitsAux]; simp

theorem digitsVal_natDigitsAux (n : Nat) : digitsVal (natDigitsAux n) = n := by
  induction n using Nat.strong_induction_on with
  | _ n ih =>
    have hchar : ∀ d : Nat, d < 10 → (Char.ofNat ('0'.toNat + d)).toNat = 48 + d := by decide
    match n with
    | 0 => simp [natDigitsAux, digitsVal]
    | m + 1 =>
      rw [natDigitsAux, digitsVal]
      rw [ih ((m + 1) / 10) (Nat.div_lt_self (Nat.succ_pos m) (by norm_num))]
      unfold digitChar
      rw [hchar ((m + 1) % 10) (Nat.mod_lt _ (by norm_num))]
      simp only [show '0'.toNat = 48 from rfl]
      have := Nat.div_add_mod (m + 1) 10
      omega

theorem natDigits_inj {a b : Nat} (h : natDigits a = natDigits b) : a = b := by
  have : natDigitsAux a = natDigitsAux b := List.reverse_injective h
  have ha := digitsVal_natDigitsAux a
  rw [this, digitsVal_natDigitsAux b] at ha
  exact ha.symm

/-- Splitting an equality of concatenations when the first parts satisfy a
character predicate and the second parts start with a character refuting it. -/
theorem append_eq_append_of_sep {P : Char → Prop} :
    ∀ (a₁ a₂ b₁ b₂ : List Char), a₁ ++ b₁ = a₂ ++ b₂ →
      (∀ c ∈ a₁, P c) → (∀ c ∈ a₂, P c) →
      (∀ c, b₁.head? = some c → ¬P c) → (∀ c, b₂.head? = some c → ¬P c) →
      a₁ = a₂ ∧ b₁ = b₂ := by
  intro a₁
  induction a₁ with
  | nil =>
    intro a₂ b₁ b₂ heq _ ha₂ hb₁ _
    match a₂ with
    | [] => exact ⟨rfl, heq⟩
    | c :: a₂' =>
      exfalso
      simp only [List.nil_append] at heq
      subst heq
      exact hb₁ c rfl (ha₂ c (List.mem_cons_self _ _))
  | cons c a₁' ihc =>
    intro a₂ b₁ b₂ heq ha₁ ha₂ hb₁ hb₂
    match a₂ with
    | [] =>
      exfalso
      simp only [List.nil_append] at heq
      exact hb₂ c (by rw [← heq]; rfl) (ha₁ c (List.mem_cons_self _ _))
    | c₂ :: a₂' =>
      simp only [List.cons_append, List.cons.injEq] at heq
      obtain ⟨rfl, heq'⟩ := heq
      obtain ⟨h1, h2⟩ := ihc a₂' b₁ b₂ heq'
        (fun x hx => ha₁ x (List.mem_cons_of_mem _ hx))
        (fun x hx => ha₂ x (List.mem_cons_of_mem _ hx)) hb₁ hb₂
      exact ⟨by rw [h1], h2⟩

theorem seatLabel_inj {r₁ n₁ r₂ n₂ : Nat} (h₁ : 1 ≤ n₁) (h₂ : 1 ≤ n₂)
    (h : seatLabel r₁ n₁ = seatLabel r₂ n₂) : r₁ = r₂ ∧ n₁ = n₂ := by
  have hd : ∀ n, 1 ≤ n → ∀ c, (natDigits n).head? = some c →
      ¬(65 ≤ c.toNat ∧ c.toNat ≤ 90) := by
    intro n hn c hc
    have h1 : c ∈ (natDigitsAux n).reverse := List.mem_of_mem_head? hc
    have := natDigitsAux_toNat_bounds n c (List.mem_reverse.mp h1)
    omega
  obtain ⟨hrow, hnum⟩ := append_eq_append_of_sep
    (generateRowName r₁) (generateRowName r₂) (natDigits n₁) (natDigits n₂) h
    (fun c hc => generateRowName_toNat_bounds r₁ c hc)
    (fun c hc => generateRowName_toNat_bounds r₂ c hc)
    (hd n₁ h₁) (hd n₂ h₂)
  exact ⟨generateRowName_inj hrow, natDigits_inj hnum⟩

theorem generateRow_eq (rowIdx R : Nat) : ∀ (remaining s : Nat),
    generateRow rowIdx s remaining R
      = (List.range (min (R + 1 - s) remaining)).map (fun j => seatLabel rowIdx (s + j)) := by
  intro remaining
  induction remaining with
  | zero => intro s; simp [generateRow]
  | succ r ih =>
    intro s
    rw [generateRow]
    by_cases hs : s ≤ R
    · rw [if_pos hs, ih (s + 1)]
      have hmin : min (R + 1 - s) (r + 1) = min (R - s) r + 1 := by omega
      rw [hmin, List.range_succ_eq_map]
      simp only [List.map_cons, List.map_map, Nat.add_zero]
      congr 1
      have : R + 1 - (s + 1) = R - s := by omega
      rw [this]
      refine List.map_congr_left ?_
      intro j _
      simp only [Function.comp]
      congr 1
      omega
    · rw [if_neg hs]
      have : R + 1 - s = 0 := by omega
      rw [this]
      simp

theorem generateSeatsAux_eq (R : Nat) (hR : 1 ≤ R) : ∀ (fuel remaining rowIdx : Nat),
    remaining ≤ fuel →
    generateSeatsAux fuel rowIdx remaining R
      = (List.range remaining).map (fun i => seatLabel (rowIdx + i / R) (i % R + 1)) := by
  intro fuel
  induction fuel with
  | zero =>
    intro remaining rowIdx hle
    interval_cases remaining
    simp [generateSeatsAux]
  | succ f ih =>
    intro remaining rowIdx hle
    rw [generateSeatsAux]
    by_cases h0 : remaining = 0
    · subst h0; simp
    · rw [if_neg h0]
      have hrow := generateRow_eq rowIdx R remaining 1
      have hmin1 : R + 1 - 1 = R := by omega
      rw [hmin1] at hrow
      have hlen : (generateRow rowIdx 1 remaining R).length = min R remaining := by
        rw [hrow, List.length_map, List.length_range]
      by_cases hsmall : remaining ≤ R
      · have hminr : min R remaining = remaining := by omega
        simp only [hrow, List.length_map, List.length_range, hminr, Nat.sub_self]
        have haux0 : generateSeatsAux f (rowIdx + 1) 0 R = [] := by
          cases f <;> simp [generateSeatsAux]
        rw [haux0, List.append_nil]
        refine List.map_congr_left ?_
        intro i hi
        rw [List.mem_range] at hi
        have hiR : i < R := by omega
        rw [Nat.div_eq_of_lt hiR, Nat.mod_eq_of_lt hiR]
        congr 1
        omega
      · have hminR : min R remaining = R := by omega
        simp only [hrow, List.length_map, List.length_range, hminR]
        have hrem : remaining - R ≤ f := by omega
        rw [ih (remaining - R) (rowIdx + 1) hrem]
        have hsplit : remaining = R + (remaining - R) := by omega
        conv_rhs => rw [hsplit, List.range_add]
        rw [List.map_append, List.map_map]
        congr 1
        · refine List.map_congr_left ?_
          intro i hi
          rw [List.mem_range] at hi
          rw [Nat.div_eq_of_lt hi, Nat.mod_eq_of_lt hi]
          congr 1
          omega
        · refine List.map_congr_left ?_
          intro j _
          simp only [Function.comp]
          have hdiv : (R + j) / R = j / R + 1 := by
            rw [Nat.add_comm R j, Nat.add_div_right _ (by omega)]
          have hmod : (R + j) % R = j % R := by
            rw [Nat.add_comm R j, Nat.add_mod_right]
          rw [hdiv, hmod]
          congr 1
          omega

theorem generateSeats_eq (N R : Nat) (hR : 1 ≤ R) :
    generateSeats N R = (List.range N).map (fun i => seatLabel (i / R) (i % R + 1)) := by
  unfold generateSeats
  rw [generateSeatsAux_eq R hR N N 0 le_rfl]
  refine List.map_congr_left ?_
  intro i _
  rw [Nat.zero_add]

/-! ## Lemmas on the availability queries -/

theorem availWhere_eq_specAvailable (st : EventState) (now : Time) (s : Seat) :
    (availWhere st now s == some true) = specAvailable st now s := by
  rcases h1 : s.status == "available" <;>
    rcases h2 : s.status == "held" <;>
      rcases hj : joinedHold st s with - | h' <;>
        first
        | (simp [availWhere, specAvailable, tvOr, tvAnd, bne, h1, h2, hj]; done)
        | (rcases hb : decide (h'.expiresAt < now) <;>
            simp [availWhere, specAvailable, tvOr, tvAnd, bne, h1, h2, hj, hb])

theorem unavailWhere_eq_not_specAvailable (st : EventState) (now : Time) (s : Seat)
    (hres : s.status = "held" → ∃ h ∈ st.holds, s.holdId = some h.id) :
    (unavailWhere st now s == some true) = !specAvailable st now s := by
  cases h1 : s.status == "available"
  · cases h2 : s.status == "held"
    · simp [unavailWhere, specAvailable, tvAnd, tvNot, bne, h1, h2]
    · obtain ⟨h, hmem, hid⟩ := hres (eq_of_beq h2)
      have hjoin : ∃ h', joinedHold st s = some h' := by
        have : (st.holds.find? fun h' => h'.id == h.id).isSome := by
          rw [List.find?_isSome]
          exact ⟨h, hmem, by simp⟩
        obtain ⟨h', hh'⟩ := Option.isSome_iff_exists.mp this
        exact ⟨h', by simp [joinedHold, hid, hh']⟩
      obtain ⟨h', hj⟩ := hjoin
      cases hb : decide (h'.expiresAt < now) <;>
        simp [unavailWhere, specAvailable, tvAnd, tvNot, bne, h1, h2, hj, hb]
  · have h2 : (s.status == "held") = false := by
      have := eq_of_beq h1
      simp [this]
    simp [unavailWhere, specAvailable, tvAnd, tvNot, bne, h1, h2]

theorem availWhere_some_true_iff (st : EventState) (now : Time) (s : Seat) :
    availWhere st now s = some true ↔ specAvailable st now s = true := by
  rw [← availWhere_eq_specAvailable]
  constructor
  · intro h
    simp [h]
  · intro h
    simpa using h

theorem unavailWhere_some_true_iff (st : EventState) (now : Time) (s : Seat)
    (hres : s.status = "held" → ∃ h ∈ st.holds, s.holdId = some h.id) :
    unavailWhere st now s = some true ↔ specAvailable st now s = false := by
  have hb := unavailWhere_eq_not_specAvailable st now s hres
  cases hsp : specAvailable st now s
  · rw [hsp] at hb
    simp only [Bool.not_false] at hb
    constructor
    · intro _
      rfl
    · intro _
      simpa using hb
  · rw [hsp] at hb
    simp only [Bool.not_true] at hb
    constructor
    · intro h
      rw [h] at hb
      simp at hb
    · intro h
      exact absurd h (by simp)

theorem joinedHold_eq_of_holdId (st : EventState) (s : Seat) (h : Hold)
    (hnodup : (st.holds.map Hold.id).Nodup) (hmem : h ∈ st.holds)
    (hid : s.holdId = some h.id) : joinedHold st s = some h := by
  unfold joinedHold
  rw [hid, Option.some_bind]
  have hsome : (st.holds.find? fun h' => h'.id == h.id).isSome := by
    rw [List.find?_isSome]
    exact ⟨h, hmem, by simp⟩
  obtain ⟨h', hh'⟩ := Option.isSome_iff_exists.mp hsome
  have hmem' : h' ∈ st.holds := List.mem_of_find?_eq_some hh'
  have heqid := List.find?_some hh'
  have : h' = h := List.inj_on_of_nodup_map hnodup hmem' hmem (eq_of_beq heqid)
  rw [hh', this]

/-! ## Claim theorems -/

/-- Claim C1 (refuted, code bug): the spec requires the status-update path to
check the current status and refuse to overwrite a terminal one, so that
re-processing a BookingRequest for an already-terminal booking leaves the row
unchanged.  The code has no such guard: `UpdateBookingStatus` updates
`WHERE id = ?` with no status condition, and `processBooking` starts by
unconditionally writing `processing`.  Evaluated on a booking already
`confirmed`, a redelivered message (payment succeeding, `ConfirmHold` then
failing, e.g. because the hold is gone) first overwrites the terminal status
with `processing` and finally leaves the row `failed` — the terminal state is
overwritten twice. -/
theorem c1_terminal_status_overwritten :
    UpdateBookingStatus [bkConfirmed]
        { bookingId := "b1", status := "processing", paymentStatus := "payment"
          errorMessage := none, confirmedAt := none, failedAt := none }
      = [{ bkConfirmed with status := "processing", paymentStatus := "payment" }]
    ∧ applyUpdates [bkConfirmed]
        (processBookingUpdates "b1" 90 none (some "hold not found"))
      = [{ bkConfirmed with
           status := "failed"
           paymentStatus := "refund_pending"
           errorMessage := some "Failed to confirm seats: hold not found"
           failedAt := some 90 }]
    ∧ applyUpdates [bkConfirmed]
        (processBookingUpdates "b1" 90 none (some "hold not found")) ≠ [bkConfirmed] := by
  refine ⟨rfl, rfl, ?_⟩
  decide

/-- Claim C2 (refuted, code bug): the spec says `ConfirmHold` fails whenever
the hold is not `active`, leaving the hold and seat rows unchanged.
`PostgresEventRepository.ConfirmHold` never inspects the hold's status: on a
hold already `expired` (seat long released) it succeeds, marks the seat row
`booked` and the hold `confirmed` — exactly the late confirmation of released
seats the spec says is prevented. -/
theorem c2_confirm_nonactive_hold_succeeds :
    stExpiredHold.holds = [⟨"h1", "u1", "e1", ["A1"], 5, "expired"⟩]
    ∧ ConfirmHold stExpiredHold "h1"
      = .ok { seats := [⟨"s1", "e1", "A1", "booked", none⟩]
              holds := [⟨"h1", "u1", "e1", ["A1"], 5, "confirmed"⟩] } := by
  exact ⟨rfl, rfl⟩

/-- Claim C3 (refuted, code bug): the spec's seat state machine makes `booked`
terminal.  `ReleaseHold` updates the seats matched by event id and seat label
back to `available` with no condition on their current status: released on a
hold that was already confirmed, it moves the hold's `booked` seat back to
`available` — a transition out of the terminal state. -/
theorem c3_release_moves_booked_seat_to_available :
    stBookedSeat.seats = [⟨"s1", "e1", "A1", "booked", some "h1"⟩]
    ∧ ReleaseHold stBookedSeat "h1"
      = .ok { seats := [⟨"s1", "e1", "A1", "available", none⟩]
              holds := [⟨"h1", "u1", "e1", ["A1"], 5, "expired"⟩] } := by
  exact ⟨rfl, rfl⟩

/-- Claim C5 (refuted, code bug): the spec says at most one booking row per
hold id is enforced by a database unique constraint on `hold_id`.  The gorm
tag on `Booking.HoldID` is `not null;index` — a plain non-unique index — so
the only duplicate protection is the submit-time lookup, and two inserts with
the same `hold_id` (as racing `SubmitBooking` calls would issue after both
lookups missed) both succeed, leaving two rows for the hold. -/
theorem c5_no_unique_constraint_on_hold_id :
    gormTagDeclaresUnique bookingHoldIDGormTag = false
    ∧ ((CreateBooking (CreateBooking [] reqHold1 "b1").2 reqHold1 "b2").2.filter
        (fun b => b.holdId == "h1")).length = 2 := by
  exact ⟨by decide, rfl⟩

/-- Claim C8 (confirmed): for any `total_seats = N ≥ 1` and row width `R ≥ 1`
(the source configures `R = seatsPerRow = 500`), the generator — a pure
function, hence deterministic — produces exactly `N` pairwise-distinct labels;
the `i`-th label is row `generateRowName (i / R)` followed by the decimal
position `i % R + 1 ∈ 1…R`, and the row-letter scheme is Excel-style:
row index 0 ↦ `A`, 25 ↦ `Z`, 26 ↦ `AA`, 27 ↦ `AB`. -/
theorem c8_seat_label_generation (N R : Nat) (_hN : 1 ≤ N) (hR : 1 ≤ R) :
    (generateSeats N R).length = N
    ∧ (generateSeats N R).Nodup
    ∧ generateSeats N R = (List.range N).map (fun i => seatLabel (i / R) (i % R + 1))
    ∧ generateRowName 0 = ['A']
    ∧ generateRowName 25 = ['Z']
    ∧ generateRowName 26 = ['A', 'A']
    ∧ generateRowName 27 = ['A', 'B'] := by
  have heq := generateSeats_eq N R hR
  have hinj : Function.Injective (fun i => seatLabel (i / R) (i % R + 1)) := by
    intro i j hij
    obtain ⟨hdiv, hnum⟩ := seatLabel_inj (by omega) (by omega) hij
    have hmod : i % R = j % R := by omega
    calc i = R * (i / R) + i % R := (Nat.div_add_mod i R).symm
      _ = R * (j / R) + j % R := by rw [hdiv, hmod]
      _ = j := Nat.div_add_mod j R
  refine ⟨?_, ?_, heq, ?_, ?_, ?_, ?_⟩
  · rw [heq, List.length_map, List.length_range]
  · rw [heq]
    exact (List.nodup_range N).map hinj
  · rw [generateRowName]
    decide
  · rw [generateRowName]
    decide
  · simp [generateRowName]
  · simp [generateRowName]

/-- Claim C8, witness: five seats at row width two give the labels
`A1 A2 B1 B2 C1` — five distinct labels, Excel rows. -/
theorem c8_seat_label_witness :
    (generateSeats 5 2).length = 5 ∧ (generateSeats 5 2).Nodup := by
  obtain ⟨h1, h2, -⟩ := c8_seat_label_generation 5 2 (by norm_num) (by norm_num)
  exact ⟨h1, h2⟩

/-- Claim C6, counterexample: releasing the already-expired hold `h1` is *not*
a no-op on the seat rows when the seat has meanwhile been handed to another
hold: the release strips `h2`'s reservation, setting the seat back to
`available`. -/
theorem c6_counterexample_rerelease_strips_new_hold :
    ReleaseHold stSeatRehandedToH2 "h1"
      = .ok { seats := [⟨"s1", "e1", "A1", "available", none⟩]
              holds := stSeatRehandedToH2.holds }
    ∧ (ReleaseHold stSeatRehandedToH2 "h1").toOption.map EventState.seats
      ≠ some stSeatRehandedToH2.seats := by
  refine ⟨rfl, ?_⟩
  decide

/-- Claim C6 (amended): re-releasing an already-expired hold succeeds and is a
no-op *when the hold's labelled seats are still as the first release left
them* (status `available`, no hold id) — not regardless of the seats' state,
since the seat update is unconditional on their current status. -/
theorem c6_rerelease_of_untouched_expired_hold_is_noop
    (st : EventState) (hold : Hold) (holdID : String)
    (hids : (st.holds.map Hold.id).Nodup)
    (hfind : st.holds.find? (fun h => h.id == holdID) = some hold)
    (hstatus : hold.status = "expired")
    (hseats : ∀ s ∈ st.seats, s.eventId = hold.eventId → s.seatNumber ∈ hold.seatNumbers →
      s.status = "available" ∧ s.holdId = none) :
    ReleaseHold st holdID = .ok st := by
  have hmem : hold ∈ st.holds := List.mem_of_find?_eq_some hfind
  have hp := List.find?_some hfind
  have hid : hold.id = holdID := eq_of_beq hp
  have hseatsPt : ∀ s ∈ st.seats,
      (if s.eventId == hold.eventId && hold.seatNumbers.contains s.seatNumber then
        { s with status := "available", holdId := none }
      else s) = s := by
    intro s hs
    by_cases hc : (s.eventId == hold.eventId && hold.seatNumbers.contains s.seatNumber) = true
    · have hc' := hc
      simp only [Bool.and_eq_true, beq_iff_eq] at hc'
      have hmem' : s.seatNumber ∈ hold.seatNumbers := by simpa using hc'.2
      obtain ⟨ha, hb⟩ := hseats s hs hc'.1 hmem'
      rw [if_pos hc]
      cases s
      simp_all
    · rw [if_neg hc]
  have hholdsPt : ∀ h ∈ st.holds,
      (if h.id == holdID then { h with status := "expired" } else h) = h := by
    intro h hh
    by_cases hc : (h.id == holdID) = true
    · have heq : h = hold := by
        apply List.inj_on_of_nodup_map hids hh hmem
        rw [eq_of_beq hc, hid]
      subst heq
      rw [if_pos hc]
      cases h
      simp_all
    · rw [if_neg hc]
  have hseatsEq : (st.seats.map fun s =>
      if s.eventId == hold.eventId && hold.seatNumbers.contains s.seatNumber then
        { s with status := "available", holdId := none }
      else s) = st.seats :=
    (List.map_congr_left hseatsPt).trans (List.map_id st.seats)
  have hholdsEq : (st.holds.map fun h =>
      if h.id == holdID then { h with status := "expired" } else h) = st.holds :=
    (List.map_congr_left hholdsPt).trans (List.map_id st.holds)
  simp only [ReleaseHold, hfind]
  rw [hseatsEq, hholdsEq]

/-- Claim C6, witness: with seat `A1` still as the first release left it,
re-releasing the expired hold `h1` returns success and the unchanged state. -/
theorem c6_rerelease_witness :
    (stExpiredHold.holds.map Hold.id).Nodup
    ∧ ReleaseHold stExpiredHold "h1" = .ok stExpiredHold := by
  refine ⟨by decide, ?_⟩
  exact c6_rerelease_of_untouched_expired_hold_is_noop stExpiredHold
    ⟨"h1", "u1", "e1", ["A1"], 5, "expired"⟩ "h1" (by decide) (by decide) rfl (by decide)

/-- Claim C9, counterexample: for a booking in terminal status `failed` whose
row carries an error message, the stream's final `complete` event holds only
the keys `booking_id` and `final_status`; it does not carry the error
message. -/
theorem c9_counterexample_complete_event_lacks_error_message :
    bkFailed.errorMessage = some "Payment failed: payment gateway declined transaction"
    ∧ streamInitial bkFailed 100
      = ([.status ⟨"b2", "failed", "Current status: failed", 100⟩,
          .complete [("booking_id", "b2"), ("final_status", "failed")]], true)
    ∧ (completePayload bkFailed).lookup "error_message" = none := by
  exact ⟨rfl, rfl, rfl⟩

/-- Claim C9 (amended): on observing a terminal booking, the stream emits a
final `complete` event whose payload carries `final_status` (`failed` or
`confirmed`) and the booking id — but no `error_message` field — and then
closes. -/
theorem c9_stream_closes_with_complete_event (b : Booking) (now : Time)
    (hterm : b.status = "failed" ∨ b.status = "confirmed") :
    streamInitial b now
      = ([.status ⟨b.id, b.status, "Current status: " ++ b.status, now⟩,
          .complete [("booking_id", b.id), ("final_status", b.status)]], true)
    ∧ (completePayload b).map Prod.fst = ["booking_id", "final_status"]
    ∧ (completePayload b).lookup "error_message" = none := by
  rcases hterm with h | h <;>
    refine ⟨?_, rfl, rfl⟩ <;>
    simp [streamInitial, completePayload, h]

/-- Claim C9, witness: the amended statement evaluated at the concrete failed
booking `bkFailed` and at the confirmed booking `bkConfirmed`. -/
theorem c9_stream_witness :
    (streamInitial bkFailed 100).2 = true ∧ (streamInitial bkConfirmed 100).2 = true := by
  constructor
  · rw [(c9_stream_closes_with_complete_event bkFailed 100 (Or.inl rfl)).1]
  · rw [(c9_stream_closes_with_complete_event bkConfirmed 100 (Or.inr rfl)).1]

/-- Claim C10 (confirmed): `ToBookingStatusResponse` of a `failed` booking
omits the event details, the seat list and the total amount (they are filled
in only for `confirmed` or `processing`), while carrying the payment status,
the error message and the created/failed timestamps. -/
theorem c10_failed_booking_status_view (b : Booking) :
    (b.status = "failed" →
      ToBookingStatusResponse b =
        { bookingId := b.id, status := b.status, event := none, seats := none
          totalAmount := 0, paymentStatus := b.paymentStatus
          errorMessage := b.errorMessage, createdAt := b.createdAt
          confirmedAt := b.confirmedAt, failedAt := b.failedAt })
    ∧ (b.status = "confirmed" ∨ b.status = "processing" →
        (ToBookingStatusResponse b).event
            = some ⟨b.eventId, b.eventName, b.venue, b.eventDate⟩
          ∧ (ToBookingStatusResponse b).seats = some b.seats
          ∧ (ToBookingStatusResponse b).totalAmount = b.totalAmount) := by
  constructor
  · intro h
    simp [ToBookingStatusResponse, h]
  · rintro (h | h) <;> simp [ToBookingStatusResponse, h]

/-- Claim C10, witness: the view of the concrete failed booking `bkFailed`
carries no event, seats or amount, but does carry payment status, error
message and timestamps. -/
theorem c10_failed_booking_witness :
    ToBookingStatusResponse bkFailed =
      { bookingId := "b2", status := "failed", event := none, seats := none
        totalAmount := 0, paymentStatus := "failed"
        errorMessage := some "Payment failed: payment gateway declined transaction"
        createdAt := 10, confirmedAt := none, failedAt := some 60 } := by
  exact (c10_failed_booking_status_view bkFailed).1 rfl

/-- Claim C4 (confirmed): on a well-formed state (hold ids are primary keys
and every `held` seat's `hold_id` resolves — true of every state the
repository's own operations produce), all three availability operations
decide availability by the spec's single predicate `specAvailable`
(`status = 'available'`, or `status = 'held'` with the joined hold's
`expires_at < now`): the listing contains exactly the event's effectively
available seat numbers, the count counts them, and the per-label check
accepts iff every requested seat row of the event is effectively available.
Consequently, once `now` has passed a hold's `expires_at`, the seats still
marked `held` under that hold are reported available by every query, with no
reaper run needed. -/
theorem c4_availability_same_predicate (st : EventState) (now : Time)
    (eventID : String) (req : List String) (hwf : WellFormed st) :
    (∀ lbl, lbl ∈ GetAvailableSeats st now eventID ↔
        ∃ s ∈ st.seats, s.eventId = eventID ∧ s.seatNumber = lbl ∧ specAvailable st now s = true)
    ∧ GetAvailableSeatCount st now eventID
        = ((st.seats.filter fun s => s.eventId == eventID && specAvailable st now s)).length
    ∧ (CheckSeatsAvailability st now eventID req = .ok () ↔
        ∀ s ∈ st.seats, s.eventId = eventID → s.seatNumber ∈ req →
          specAvailable st now s = true)
    ∧ (∀ h ∈ st.holds, h.expiresAt < now →
        ∀ s ∈ st.seats, s.eventId = eventID → s.status = "held" → s.holdId = some h.id →
          specAvailable st now s = true ∧ s.seatNumber ∈ GetAvailableSeats st now eventID) := by
  obtain ⟨hnodup, hres⟩ := hwf
  have hmem : ∀ lbl, lbl ∈ GetAvailableSeats st now eventID ↔
      ∃ s ∈ st.seats, s.eventId = eventID ∧ s.seatNumber = lbl ∧
        specAvailable st now s = true := by
    intro lbl
    unfold GetAvailableSeats
    rw [List.mem_mergeSort]
    simp only [List.mem_map, List.mem_filter, Bool.and_eq_true, beq_iff_eq]
    constructor
    · rintro ⟨s, ⟨hs, hev, hav⟩, rfl⟩
      exact ⟨s, hs, hev, rfl, (availWhere_some_true_iff st now s).mp hav⟩
    · rintro ⟨s, hs, hev, rfl, hspec⟩
      exact ⟨s, ⟨hs, hev, (availWhere_some_true_iff st now s).mpr hspec⟩, rfl⟩
  refine ⟨hmem, ?_, ?_, ?_⟩
  · unfold GetAvailableSeatCount
    congr 1
    refine List.filter_congr ?_
    intro s _
    rw [availWhere_eq_specAvailable]
  · simp only [CheckSeatsAvailability]
    rw [List.length_map]
    by_cases h0 : 0 < (st.seats.filter fun s =>
        s.eventId == eventID && req.contains s.seatNumber
          && (unavailWhere st now s == some true)).length
    · rw [if_pos h0]
      obtain ⟨s0, hs0⟩ := List.exists_mem_of_length_pos h0
      rw [List.mem_filter] at hs0
      obtain ⟨hs0m, hp⟩ := hs0
      simp only [Bool.and_eq_true, beq_iff_eq] at hp
      obtain ⟨⟨hev, hcont⟩, hunav⟩ := hp
      constructor
      · intro hcontra
        exact absurd hcontra (by simp)
      · intro hall
        exfalso
        have hspec := hall s0 hs0m hev (by simpa using hcont)
        have := (unavailWhere_some_true_iff st now s0 (hres s0 hs0m)).mp hunav
        rw [hspec] at this
        exact absurd this (by simp)
    · rw [if_neg h0]
      have hnil : (st.seats.filter fun s =>
          s.eventId == eventID && req.contains s.seatNumber
            && (unavailWhere st now s == some true)) = [] := by
        rcases hfe : (st.seats.filter fun s =>
            s.eventId == eventID && req.contains s.seatNumber
              && (unavailWhere st now s == some true)) with - | ⟨a, l⟩
        · exact hfe
        · exact absurd (by rw [hfe]; simp) h0
      rw [List.filter_eq_nil_iff] at hnil
      constructor
      · intro _ s hs hev hreq
        by_contra hspec
        have hspec' : specAvailable st now s = false := by
          cases hb : specAvailable st now s
          · rfl
          · exact absurd hb hspec
        refine hnil s hs ?_
        simp only [Bool.and_eq_true, beq_iff_eq]
        refine ⟨⟨hev, by simpa using hreq⟩, ?_⟩
        exact (unavailWhere_some_true_iff st now s (hres s hs)).mpr hspec'
      · intro _
        rfl
  · intro h hhm hlt s hs hev hheld hid
    have hj : joinedHold st s = some h := joinedHold_eq_of_holdId st s h hnodup hhm hid
    have hspec : specAvailable st now s = true := by
      unfold specAvailable
      rw [hj]
      simp [hheld, hlt]
    exact ⟨hspec, (hmem s.seatNumber).mpr ⟨s, hs, hev, rfl, hspec⟩⟩

/-- Claim C4, witness: the agreement instantiated on `stTwoSeats` at time 10
(after hold `h1`'s expiry 5): the held seat `A2` of the unreaped hold counts
as available in the listing and the check accepts both seats. -/
theorem c4_availability_witness :
    WellFormed stTwoSeats
    ∧ "A2" ∈ GetAvailableSeats stTwoSeats 10 "e1"
    ∧ CheckSeatsAvailability stTwoSeats 10 "e1" ["A1", "A2"] = .ok () := by
  have hwf : WellFormed stTwoSeats := by decide
  obtain ⟨hmem, hcount, hcheck, hexp⟩ :=
    c4_availability_same_predicate stTwoSeats 10 "e1" ["A1", "A2"] hwf
  refine ⟨hwf, ?_, ?_⟩
  · exact (hmem "A2").mpr
      ⟨⟨"s2", "e1", "A2", "held", some "h1"⟩, by decide, rfl, rfl, by decide⟩
  · refine hcheck.mpr ?_
    decide

theorem contains_iff_mem (l : List String) (a : String) : l.contains a = true ↔ a ∈ l :=
  List.elem_iff

/-- Claim C7 (confirmed, handler spec-modelled): when the requested labels
include at least one that exists on no seat row of the event (whose seat
labels are distinct, as `generateSeats` produces them), the hold-seats
operation answers HTTP 400 via `HoldSeatsEndpoint`, the repository's
`CreateHold` fails without inserting a hold, and the reported missing set
contains exactly the requested labels with no seat row for the event. -/
theorem c7_unknown_seats_rejected (st : EventState) (now : Time) (req : CreateHoldRequest)
    (htable : ((st.seats.filter fun s => s.eventId == req.eventId).map Seat.seatNumber).Nodup)
    (hmiss : ∃ x ∈ req.seatNumbers,
      ∀ s ∈ st.seats, s.eventId = req.eventId → s.seatNumber ≠ x) :
    ∃ missing,
      HoldSeatsEndpoint st now req = .badRequestUnknownSeats missing
      ∧ CreateHold st now req = .error (.seatsDoNotExist missing)
      ∧ ∀ x, x ∈ missing ↔ x ∈ req.seatNumbers ∧
          ∀ s ∈ st.seats, s.eventId = req.eventId → s.seatNumber ≠ x := by
  obtain ⟨x₀, hx₀req, hx₀miss⟩ := hmiss
  set existingSeats := ((st.seats.filter fun s =>
      s.eventId == req.eventId && req.seatNumbers.contains s.seatNumber)).map
    Seat.seatNumber with hex
  have hexmem : ∀ x, x ∈ existingSeats ↔ ∃ s ∈ st.seats,
      s.eventId = req.eventId ∧ s.seatNumber ∈ req.seatNumbers ∧ s.seatNumber = x := by
    intro x
    rw [hex]
    simp only [List.mem_map, List.mem_filter, Bool.and_eq_true, beq_iff_eq]
    constructor
    · rintro ⟨s, ⟨hs, hev, hc⟩, rfl⟩
      exact ⟨s, hs, hev, by simpa using hc, rfl⟩
    · rintro ⟨s, hs, hev, hc, rfl⟩
      exact ⟨s, ⟨hs, hev, by simpa using hc⟩, rfl⟩
  have hexnodup : existingSeats.Nodup := by
    rw [hex]
    refine List.Sublist.nodup (List.Sublist.map Seat.seatNumber ?_) htable
    have hff : (st.seats.filter fun s =>
        s.eventId == req.eventId && req.seatNumbers.contains s.seatNumber)
        = (st.seats.filter fun s => s.eventId == req.eventId).filter
            fun s => req.seatNumbers.contains s.seatNumber := by
      rw [List.filter_filter]
      exact List.filter_congr fun a _ => Bool.and_comm _ _
    rw [hff]
    exact List.filter_sublist _
  have hexsub : existingSeats ⊆ req.seatNumbers := by
    intro x hx
    obtain ⟨s, _, _, hc, rfl⟩ := (hexmem x).mp hx
    exact hc
  have hx₀notex : x₀ ∉ existingSeats := by
    intro hx₀
    obtain ⟨s, hs, hev, _, heq⟩ := (hexmem x₀).mp hx₀
    exact hx₀miss s hs hev heq
  have hlen : existingSeats.length ≠ req.seatNumbers.length := by
    intro hlen
    have hsubperm := List.subperm_of_subset hexnodup hexsub
    have hperm := List.Subperm.perm_of_length_le hsubperm (le_of_eq hlen.symm)
    exact hx₀notex (hperm.mem_iff.mpr hx₀req)
  have hche : CheckSeatsExist st req.eventId req.seatNumbers
      = .error (req.seatNumbers.filter fun seat => !existingSeats.contains seat) := by
    simp only [CheckSeatsExist]
    rw [if_pos hlen]
  refine ⟨req.seatNumbers.filter fun seat => !existingSeats.contains seat, ?_, ?_, ?_⟩
  · unfold HoldSeatsEndpoint CreateHold
    rw [hche]
  · unfold CreateHold
    rw [hche]
  · intro x
    rw [List.mem_filter]
    constructor
    · rintro ⟨hxreq, hxne⟩
      have hnotin : x ∉ existingSeats := by
        intro hx
        rw [(contains_iff_mem existingSeats x).mpr hx] at hxne
        exact absurd hxne (by simp)
      refine ⟨hxreq, ?_⟩
      intro s hs hev heq
      exact hnotin ((hexmem x).mpr ⟨s, hs, hev, heq ▸ hxreq, heq⟩)
    · rintro ⟨hxreq, hxmiss⟩
      have hnotin : x ∉ existingSeats := by
        intro hx
        obtain ⟨s, hs, hev, -, heq⟩ := (hexmem x).mp hx
        exact hxmiss s hs hev heq
      refine ⟨hxreq, ?_⟩
      cases hc : existingSeats.contains x
      · simp
      · exact absurd ((contains_iff_mem existingSeats x).mp hc) hnotin

/-- Claim C7, witness: requesting `Z99`, `Z100` on the two-seat event with
labels `A1`, `A2` yields the 400 outcome whose missing set names exactly
`Z99` and `Z100`. -/
theorem c7_unknown_seats_witness :
    reqZ.seatNumbers.Nodup
    ∧ ∃ missing, HoldSeatsEndpoint stEventA1A2 50 reqZ = .badRequestUnknownSeats missing
        ∧ "Z99" ∈ missing ∧ "Z100" ∈ missing := by
  obtain ⟨missing, hend, -, hiff⟩ :=
    c7_unknown_seats_rejected stEventA1A2 50 reqZ (by decide)
      ⟨"Z99", by decide, by decide⟩
  exact ⟨by decide, missing, hend,
    (hiff "Z99").mpr (by decide), (hiff "Z100").mpr (by decide)⟩

end EventBooking
